import Mathlib

/-!
Verification development for the Google Maps reviews API scraper
(`src/scraper.py`).  The Python source is shallowly embedded: pure string
manipulation becomes Lean functions over `List Char` / `String`, the
BeautifulSoup document tree becomes a small inductive tree, fallible
Python expressions become `Option`/`Except`, and the mutable module-level
`review_default_result` dictionary (whose `errors` entry is a shared
mutable list under Python's shallow `dict.copy`) is modelled with an
explicit heap of string lists addressed by `Nat` references.
-/

set_option autoImplicit false

namespace Scraper

/-! ### Python-style character and string helpers -/

/-- Characters matched by Python's `\s` (ASCII subset, which is what the
scraped strings contain): space, tab, newline, carriage return, vertical
tab, form feed. -/
def pySpace (c : Char) : Bool :=
  c = ' ' || c = '\t' || c = '\n' || c = '\r' || c = Char.ofNat 11 || c = Char.ofNat 12

/-- Python `str.strip()` on a character list. -/
def pyStripL (l : List Char) : List Char :=
  ((l.dropWhile pySpace).reverse.dropWhile pySpace).reverse

/-- Python `str.strip()`. -/
def pyStrip (s : String) : String :=
  ⟨pyStripL s.data⟩

/-- One step of `re.sub(",", ".", s)`: a comma becomes a period. -/
def commaToPeriodC (c : Char) : Char :=
  if c = ',' then '.' else c

/-- Model of `re.sub(",", ".", s)` / `s.replace(",", ".")`. -/
def commaToPeriod (s : String) : String :=
  ⟨s.data.map commaToPeriodC⟩

/-- Model of `re.sub("\s", " ", s)`: every single whitespace character is replaced
by one space (runs of whitespace are preserved as runs of spaces). -/
def subWsEach (s : String) : String :=
  ⟨s.data.map (fun c => if pySpace c then ' ' else c)⟩

/-- Model of `re.sub("'|\"", "", s)`: remove single and double quotes. -/
def removeQuotes (s : String) : String :=
  ⟨s.data.filter (fun c => ¬ (c = '\'' || c = '"'))⟩

/-- Helper for `re.sub("\s+", " ", s)`: collapse runs of whitespace, with
a flag remembering whether the previous character was whitespace. -/
def wsCollapseGo : Bool → List Char → List Char
  | _, [] => []
  | prevWs, c :: cs =>
    if pySpace c then
      if prevWs then wsCollapseGo true cs else ' ' :: wsCollapseGo true cs
    else c :: wsCollapseGo false cs

/-- Model of `re.sub("\s+", " ", s)`: every maximal run of whitespace becomes one
space. -/
def wsCollapse (s : String) : String :=
  ⟨wsCollapseGo false s.data⟩

/-- Value of a list of decimal digit characters. -/
def digitsToNat (l : List Char) : Nat :=
  l.foldl (fun acc c => acc * 10 + (c.toNat - '0'.toNat)) 0

/-! ### Substring search (`str.find`, reverse `re.search`, slicing) -/

/-- Index of the first occurrence of `pat` in `s`, if any. -/
def findSub (s pat : List Char) : Option Nat :=
  match s with
  | [] => if pat = [] then some 0 else none
  | _ :: tl =>
    if pat.isPrefixOf s then some 0
    else (findSub tl pat).map (· + 1)

/-- Python `str.find`: index of the first occurrence, `-1` if absent. -/
def pyFind (s pat : List Char) : Int :=
  match findSub s pat with
  | some i => (i : Int)
  | none => -1

/-- Start positions of every occurrence of `pat` in `s`, ascending. -/
def occStarts (s pat : List Char) : List Nat :=
  (List.range (s.length + 1)).filter
    (fun i => pat.isPrefixOf (s.drop i) && decide (i + pat.length ≤ s.length))

/-- End position of the last occurrence of `pat` in `s`:
`m = re.search(pat, s, flags=re.REVERSE); m.span()[1]`, `none` when the
search finds nothing (so `m.span()` raises `AttributeError`). -/
def lastEndOf (s pat : List Char) : Option Nat :=
  match (occStarts s pat).getLast? with
  | none => none
  | some i => some (i + pat.length)

/-- Python slice `s[a:b]` with a possibly negative start index `a` and a
non-negative stop `b`: a negative start has the length added and is then
clamped at `0`; both bounds are clamped at the length. -/
def pySlice (s : List Char) (a : Int) (b : Nat) : List Char :=
  let n := s.length
  let a' : Nat := if a < 0 then (max (a + n) 0).toNat else min a.toNat n
  let b' : Nat := min b n
  (s.drop a').take (b' - a')

/-! ### `_cut_response` (scraper.py lines 108-113) -/

/-- Embedding of `GoogleMapsAPIScraper._cut_response`.  `text.find("<div ")`
yields `-1` when absent (no error).  The reverse search for `"</div>"`
yields `None` when absent, in which case `m.span()` raises
`AttributeError`, modelled by `Except.error ()`; the caller's retry loop
catches that error. -/
def cut_response (text : String) : Except Unit String :=
  let idxFirstDiv : Int := pyFind text.data "<div ".data
  match lastEndOf text.data "</div>".data with
  | none => .error ()
  | some idxLastDiv =>
    .ok ("<html><body>" ++ (⟨pySlice text.data idxFirstDiv idxLastDiv⟩ : String) ++ "</body></html>")

/-- Spec-side reading of the trimming step for `cut_response` (from the
amended claim): the substring of `text` from the first occurrence of
`"<div "` up to the end of the last occurrence of `"</div>"`. -/
def trimmedSpan (text : String) (firstIdx lastEnd : Nat) : String :=
  ⟨(text.data.drop firstIdx).take (lastEnd - firstIdx)⟩

/-! ### The numeric regex `[0-9]+[.][0-9]*` (rating extraction) -/

/-- Maximal leading run of decimal digits and the remaining characters. -/
def digitSpan : List Char → List Char × List Char
  | [] => ([], [])
  | c :: cs =>
    if c.isDigit then
      let p := digitSpan cs
      (c :: p.1, p.2)
    else ([], c :: cs)

theorem digitSpan_length (l : List Char) :
    (digitSpan l).1.length + (digitSpan l).2.length = l.length := by
  induction l with
  | nil => simp [digitSpan]
  | cons c cs ih =>
    by_cases h : c.isDigit
    · simp only [digitSpan, h, if_true, List.length_cons]
      omega
    · simp [digitSpan, h]

theorem digitSpan_snd_length_le (l : List Char) :
    (digitSpan l).2.length ≤ l.length := by
  have := digitSpan_length l
  omega

/-- Fuel-bounded scanner for `re.findall("[0-9]+[.][0-9]*", s)`: scan
left to right; at a digit, take the maximal digit run, require a
following period, then take the optional fractional digits; on failure
restart one character later; after a match continue after the match
(non-overlapping).  Each recursive call strictly shrinks the list, so
fuel equal to the list length never runs out. -/
def findDecimalsGo : Nat → List Char → List (List Char)
  | 0, _ => []
  | _, [] => []
  | fuel + 1, c :: cs =>
    if c.isDigit then
      match (digitSpan (c :: cs)).2 with
      | '.' :: r2 =>
        ((digitSpan (c :: cs)).1 ++ '.' :: (digitSpan r2).1) ::
          findDecimalsGo fuel (digitSpan r2).2
      | _ => findDecimalsGo fuel cs
    else findDecimalsGo fuel cs

/-- Model of `re.findall("[0-9]+[.][0-9]*", s)`. -/
def findDecimals (l : List Char) : List (List Char) :=
  findDecimalsGo l.length l

/-- Python `float` on a string matched by `[0-9]+[.][0-9]*` (integer
digits, a period, optional fractional digits), as an exact rational. -/
def floatOfMatch (l : List Char) : Rat :=
  let intPart := l.takeWhile (fun c => c ≠ '.')
  let fracPart := (l.dropWhile (fun c => c ≠ '.')).drop 1
  (digitsToNat intPart : Rat) + (digitsToNat fracPart : Rat) / ((10 : Rat) ^ fracPart.length)

/-- Embedding of the body of the review-rating `try` block
(scraper.py lines 207-211) as a function of the `aria-label` string:
commas are replaced by periods, the decimal pattern is matched, and (in
source order) `rating` is assigned from match 0 and `rating_max` from
match 1, each raising `IndexError` when the match list is too short.
The result is `(rating, rating_max, raised)`. -/
def ratingValues (lbl : String) : Option Rat × Option Rat × Bool :=
  match findDecimals (commaToPeriod lbl).data with
  | [] => (none, none, true)
  | [a] => (some (floatOfMatch a), none, true)
  | a :: b :: _ => (some (floatOfMatch a), some (floatOfMatch b), false)

/-- Python `float(s)` restricted to the simple decimal forms the place
rating strings take: optional surrounding whitespace, optional sign,
digits with at most one period and at least one digit.  Any other string
raises `ValueError`, modelled by `none`. -/
def pyFloat (s : String) : Option Rat :=
  let t := pyStripL s.data
  let core := match t with
    | '+' :: rest => some (rest, (1 : Int))
    | '-' :: rest => some (rest, (-1 : Int))
    | rest => some (rest, (1 : Int))
  match core with
  | none => none
  | some (body, sign) =>
    let intPart := body.takeWhile (fun c => c ≠ '.')
    let rest := body.dropWhile (fun c => c ≠ '.')
    let fracPart := rest.drop 1
    if body ≠ [] ∧ intPart.all Char.isDigit ∧ fracPart.all Char.isDigit ∧
        (rest = [] ∨ rest.take 1 = ['.']) ∧ (intPart ≠ [] ∨ fracPart ≠ []) ∧
        ¬ fracPart.any (fun c => c = '.') then
      some ((sign : Rat) * ((digitsToNat intPart : Rat) +
        (digitsToNat fracPart : Rat) / ((10 : Rat) ^ fracPart.length)))
    else none

/-- Embedding of the `overall_rating` extraction in `_parse_place`
(scraper.py lines 137-138): `float(text.replace(",", "."))`. -/
def overallRatingExtract (s : String) : Option Rat :=
  pyFloat (commaToPeriod s)

/-! ### BeautifulSoup node model and `_parse_review_text` (lines 165-177) -/

/-- A BeautifulSoup node: either a `NavigableString` or a `Tag` with a
name, a flag recording whether it carries a `class` attribute, and its
children in document order. -/
inductive BNode where
  | text : String → BNode
  | elem : String → Bool → List BNode → BNode

/-- Direct children of a node (`tag.contents`); a string node has none. -/
def BNode.contents : BNode → List BNode
  | .text _ => []
  | .elem _ _ cs => cs

mutual

/-- All `NavigableString`s in the subtree, in document order
(`tag.strings`). -/
def BNode.allStrings : BNode → List String
  | .text s => [s]
  | .elem _ _ cs => allStringsL cs

/-- All strings under a list of nodes, in document order. -/
def allStringsL : List BNode → List String
  | [] => []
  | n :: ns => BNode.allStrings n ++ allStringsL ns

end

/-- Model of `tag.stripped_strings`: every string in the subtree, stripped, with
the ones that strip to empty skipped. -/
def strippedStrings (n : BNode) : List String :=
  ((allStringsL n.contents).map pyStrip).filter (fun s => s ≠ "")

/-- Does `isinstance(e, Tag) and e.has_attr("class")` hold? -/
def isClassedTag : BNode → Bool
  | .text _ => false
  | .elem _ hasCls _ => hasCls

/-- The accumulation loop of `_parse_review_text`: walk the positional
pairs `zip(text_block.contents, text_block.stripped_strings)`, stop at
the first child that is a `Tag` with a `class` attribute, and append each
paired stripped string followed by a space. -/
def reviewTextLoop : List (BNode × String) → String
  | [] => ""
  | (e, s) :: rest =>
    if isClassedTag e then ""
    else (s ++ " ") ++ reviewTextLoop rest

/-- Embedding of `GoogleMapsAPIScraper._parse_review_text`: the zip-based
accumulation, then `re.sub("\s", " ", ...)`, then quote removal, then
`str.strip()`. -/
def parse_review_text (tb : BNode) : String :=
  pyStrip (removeQuotes (subWsEach
    (reviewTextLoop (List.zip tb.contents (strippedStrings tb)))))

/-- Concatenation of a list of strings. -/
def concatStrings (l : List String) : String :=
  l.foldr (fun a b => a ++ b) ""

/-- Worded from the amended claim for the review-text extractor: join the
stripped strings paired positionally with the direct children, truncated
at the first child element carrying a class attribute, each string
followed by a space; then replace each whitespace character by a space,
remove quotes and strip. -/
def reviewTextAmendedSpec (tb : BNode) : String :=
  let pairs := (List.zip tb.contents (strippedStrings tb)).takeWhile
    (fun p => !(isClassedTag p.1))
  pyStrip (removeQuotes (subWsEach (concatStrings (pairs.map (fun p => p.2 ++ " ")))))

/-- The review text strings in `contents` (direct text fragments) up to
the first child element carrying a class attribute. -/
def directTextsUpToClassed (cs : List BNode) : List String :=
  (cs.takeWhile (fun e => !(isClassedTag e))).filterMap
    (fun e => match e with
      | .text s => some s
      | .elem _ _ _ => none)

/-- The review-text extractor as claim C7 words it: concatenate the
node's direct text fragments up to (excluding) the first child element
with a class attribute, collapse every whitespace run to a single space,
and remove quote characters. -/
def reviewTextClaimed (tb : BNode) : String :=
  pyStrip (removeQuotes (wsCollapse (concatStrings (directTextsUpToClassed tb.contents))))

/-! ### The user-stats regexes `[Uuma0-9.,]+(?= comentário| review)` etc. -/

/-- Character class `[Uuma0-9.,]` of the user reviews/photos patterns. -/
def userCountClass (c : Char) : Bool :=
  c = 'U' || c = 'u' || c = 'm' || c = 'a' || c.isDigit || c = '.' || c = ','

/-- Maximal leading run of user-count-class characters and the rest. -/
def classSpan : List Char → List Char × List Char
  | [] => ([], [])
  | c :: cs =>
    if userCountClass c then
      let p := classSpan cs
      (c :: p.1, p.2)
    else ([], c :: cs)

/-- Does one of the lookahead alternatives match at this position? -/
def lookOk (looks : List (List Char)) (rest : List Char) : Bool :=
  looks.any (fun p => p.isPrefixOf rest)

/-- Greedy backtracking for `C+(?=A|B)`: `rrun` is the reversed candidate
run; try the longest content first, moving characters from the end of the
run back in front of `rest` until a lookahead alternative matches (with a
non-empty content), returning the matched content and the resume
position. -/
def backSplitRev (looks : List (List Char)) : List Char → List Char → Option (List Char × List Char)
  | [], _ => none
  | c :: rrun, rest =>
    if lookOk looks rest then some ((c :: rrun).reverse, rest)
    else backSplitRev looks rrun (c :: rest)

/-- Fuel-bounded scanner for `re.findall("[Uuma0-9.,]+(?= A| B)", s)`:
at each class character take the maximal class run, backtrack greedily
until a lookahead matches, emit the content and resume right after it
(the lookahead consumes nothing); otherwise restart one character later.
Fuel equal to the list length suffices since every recursive call
strictly shrinks the list. -/
def findLookGo (looks : List (List Char)) : Nat → List Char → List (List Char)
  | 0, _ => []
  | _, [] => []
  | fuel + 1, c :: cs =>
    if userCountClass c then
      match backSplitRev looks ((classSpan (c :: cs)).1).reverse ((classSpan (c :: cs)).2) with
      | some (content, rest) => content :: findLookGo looks fuel rest
      | none => findLookGo looks fuel cs
    else findLookGo looks fuel cs

/-- Model of `re.findall("[Uuma0-9.,]+(?= comentário| review)", text)`. -/
def findUserReviews (s : String) : List String :=
  (findLookGo [" comentário".data, " review".data] s.data.length s.data).map
    (fun l => (⟨l⟩ : String))

/-- Model of `re.findall("[Uuma0-9.,]+(?= foto| photo)", text)`. -/
def findUserPhotos (s : String) : List String :=
  (findLookGo [" foto".data, " photo".data] s.data.length s.data).map
    (fun l => (⟨l⟩ : String))

/-! ### The review-id regex `(?<=postId=).*?(?=&)` -/

/-- First stretch of characters strictly before the first `&`, or `none`
when there is no `&` (the lazy `.*?(?=&)` then fails). -/
def upToAmp (l : List Char) : Option (List Char) :=
  if l.any (fun c => c = '&') then some (l.takeWhile (fun c => c ≠ '&')) else none

/-- First match of `re.findall("(?<=postId=).*?(?=&)", href)`: locate an
occurrence of `postId=` that is followed (at some point) by a `&`; the
match is the text between them.  Scans occurrences left to right. -/
def findPostId : List Char → Option (List Char)
  | [] => none
  | c :: cs =>
    if "postId=".data.isPrefixOf (c :: cs) then
      match upToAmp ((c :: cs).drop "postId=".data.length) with
      | some content => some content
      | none => findPostId cs
    else findPostId cs

/-- Python `int(s)`: strip whitespace, optional sign, then at least one
digit; anything else raises `ValueError` (`none`). -/
def pyInt (s : String) : Option Int :=
  match pyStripL s.data with
  | '-' :: ds => if ds ≠ [] ∧ ds.all Char.isDigit then some (-(digitsToNat ds : Int)) else none
  | '+' :: ds => if ds ≠ [] ∧ ds.all Char.isDigit then some (digitsToNat ds : Int) else none
  | ds => if ds ≠ [] ∧ ds.all Char.isDigit then some (digitsToNat ds : Int) else none

/-! ### The review record, the shared-list heap, and `_parse_review` -/

/-- The fields of a review record.  Scalar entries of the Python dict are
plain values; the mutable `errors` list entry is a reference (`errorsRef`)
into an explicit heap, which is exactly what Python's shallow
`dict.copy()` duplicates: the reference, not the list. -/
structure RRecord where
  text : Option String := none
  rating : Option Rat := none
  rating_max : Option Rat := none
  other_ratings : Option String := none
  relative_date : Option String := none
  user_name : Option String := none
  user_url : Option String := none
  user_is_local_guide : Bool := false
  user_reviews : Option String := none
  user_photos : Option String := none
  review_id : Option String := none
  likes : Option Int := none
  response_text : Option String := none
  response_relative_date : Option String := none
  trip_type_travel_group : Option String := none
  token : String := ""
  retrieval_date : Option String := none
  errorsRef : Nat := 0
deriving Repr, DecidableEq

/-- The heap of mutable Python lists: address `i` holds the list stored
at that address.  One cell (address 0) is the `errors` list created once,
at module import time, inside `config.review_default_result`. -/
abbrev Heap := List (List String)

/-- Contents of the list at address `r` (a live address in our runs). -/
def derefErrors (h : Heap) (r : Nat) : List String :=
  h.getD r []

/-- Model of `lst.append(msg)` on the list at address `r`. -/
def heapAppend (h : Heap) (r : Nat) (msg : String) : Heap :=
  h.set r (h.getD r [] ++ [msg])

/-- Modelled from the spec: `config.review_default_result` (imported from
`src/config.py`, which is not part of the provided sources).  Per the
spec's ReviewRecord data model every field defaults to a missing
sentinel, `user_is_local_guide` defaults to false, and `errors` defaults
to an empty list — a single list object held by the module-level dict,
here the heap cell at address 0. -/
def review_default_result : RRecord := {}

/-- The heap at module import time: only the default record's (empty)
`errors` list exists. -/
def initHeap : Heap := [[]]

/-- Embedding of `GoogleMapsAPIScraper._handle_review_exception`: the
sanitized failure description is appended to `result["errors"]` through
the record's list reference.  The description text is abstracted to the
field name tag the source passes as `name` (the rest of the message is a
whitespace-collapsed traceback plus timestamped side-channel output,
environment-dependent and irrelevant to the claims). -/
def handle_review_exception (st : RRecord × Heap) (name : String) : RRecord × Heap :=
  (st.1, heapAppend st.2 st.1.errorsRef name)

/-- Oracle for the `Msppse` user node: its `href` attribute (absent gives
`None`, which `dict.get` returns without raising), whether the `QV3IV`
local-guide badge sub-node exists, and its text used by the count
regexes. -/
structure UserNode where
  href : Option String
  hasBadge : Bool
  textContent : String

/-- Oracle for one review `Tag`: the outcome of each BeautifulSoup query
`_parse_review` performs on it.  `Option` at the outer level is a `find`
that returned `None`; the nested `Option` on attribute lookups is the
attribute being absent. -/
structure ReviewTag where
  fullTextBlock : Option BNode := none
  expandableBlock : Option BNode := none
  ratingLabel : Option (Option String) := none
  otherRatingsNode : Option BNode := none
  relativeDateText : Option String := none
  userNameText : Option String := none
  userNode : Option UserNode := none
  reviewIdHref : Option (Option String) := none
  likesText : Option String := none
  responseNode : Option BNode := none
  responseDateText : Option String := none
  tripNode : Option BNode := none

/-- An entry of `reviews_soup`: the positional-tree attribute lookup
`response_soup.find("div", dict(r.attrib))` can fail, leaving a Python
`None` in the list; `_parse_review` then raises `AttributeError` in every
extractor block. -/
inductive ReviewSoup where
  | noneNode : ReviewSoup
  | tag : ReviewTag → ReviewSoup

/-- Lines 194-203: find the text block (`review-full-text`, else the
`data-expandable-section` carrier) and, when present, extract the text.
No failure point given the oracle. -/
def blockText (r : ReviewTag) (st : RRecord × Heap) : RRecord × Heap :=
  match r.fullTextBlock with
  | some tb => ({ st.1 with text := some (parse_review_text tb) }, st.2)
  | none =>
    match r.expandableBlock with
    | some tb => ({ st.1 with text := some (parse_review_text tb) }, st.2)
    | none => st

/-- Lines 206-213: the rating block.  A missing node makes `.get` raise;
a missing `aria-label` makes `re.sub` raise on `None`; fewer than two
regex matches make `rating[0]`/`rating[1]` raise `IndexError` — with the
first assignment already performed when only `rating[1]` fails. -/
def blockRating (r : ReviewTag) (st : RRecord × Heap) : RRecord × Heap :=
  match r.ratingLabel with
  | none => handle_review_exception st "rating"
  | some none => handle_review_exception st "rating"
  | some (some lbl) =>
    match findDecimals (commaToPeriod lbl).data with
    | [] => handle_review_exception st "rating"
    | [a] => handle_review_exception ({ st.1 with rating := some (floatOfMatch a) }, st.2) "rating"
    | a :: b :: _ =>
      ({ st.1 with rating := some (floatOfMatch a), rating_max := some (floatOfMatch b) }, st.2)

/-- Lines 216-222: other ratings; a missing node is skipped by the
`if other_ratings:` truthiness test, no failure point otherwise. -/
def blockOtherRatings (r : ReviewTag) (st : RRecord × Heap) : RRecord × Heap :=
  match r.otherRatingsNode with
  | some n =>
    let s := wsCollapse (String.intercalate " " (strippedStrings n))
    ({ st.1 with other_ratings := some s }, st.2)
  | none => st

/-- Lines 225-228: relative date; `.text` on a `find` that returned
`None` raises `AttributeError`. -/
def blockRelativeDate (r : ReviewTag) (st : RRecord × Heap) : RRecord × Heap :=
  match r.relativeDateText with
  | none => handle_review_exception st "relative_date"
  | some s => ({ st.1 with relative_date := some s }, st.2)

/-- Lines 231-234: user name; `.text` on `None` raises. -/
def blockUserName (r : ReviewTag) (st : RRecord × Heap) : RRecord × Heap :=
  match r.userNameText with
  | none => handle_review_exception st "user_name"
  | some s => ({ st.1 with user_name := some s }, st.2)

/-- Lines 237-253: user metadata; a missing node is skipped by the `if`
truthiness test; otherwise `user_url`, `user_is_local_guide` are always
assigned and the counts only when their regex matched. -/
def blockUserData (r : ReviewTag) (st : RRecord × Heap) : RRecord × Heap :=
  match r.userNode with
  | none => st
  | some u =>
    let w1 := { st.1 with user_url := u.href, user_is_local_guide := u.hasBadge }
    let w2 := match findUserReviews u.textContent with
      | [] => w1
      | x :: _ => { w1 with user_reviews := some x }
    let w3 := match findUserPhotos u.textContent with
      | [] => w2
      | x :: _ => { w2 with user_photos := some x }
    (w3, st.2)

/-- Lines 256-261: review id; `.get` on `None` raises, `re.findall` on a
`None` attribute raises, and an empty match list makes `[0]` raise. -/
def blockReviewId (r : ReviewTag) (st : RRecord × Heap) : RRecord × Heap :=
  match r.reviewIdHref with
  | none => handle_review_exception st "review_id"
  | some none => handle_review_exception st "review_id"
  | some (some href) =>
    match findPostId href.data with
    | none => handle_review_exception st "review_id"
    | some content => ({ st.1 with review_id := some (⟨content⟩ : String) }, st.2)

/-- Lines 264-269: likes; a missing node is skipped by the truthiness
test, a non-integer text makes `int(...)` raise. -/
def blockLikes (r : ReviewTag) (st : RRecord × Heap) : RRecord × Heap :=
  match r.likesText with
  | none => st
  | some t =>
    match pyInt t with
    | some v => ({ st.1 with likes := some v }, st.2)
    | none => handle_review_exception st "likes"

/-- Lines 272-280: owner response; both lookups are truthiness-guarded,
no failure point given the oracle. -/
def blockResponse (r : ReviewTag) (st : RRecord × Heap) : RRecord × Heap :=
  let st1 := match r.responseNode with
    | some n => ({ st.1 with response_text := some (parse_review_text n) }, st.2)
    | none => st
  match r.responseDateText with
  | some s => ({ st1.1 with response_relative_date := some s }, st1.2)
  | none => st1

/-- Lines 283-289: trip type / travel group; truthiness-guarded, no
failure point. -/
def blockTrip (r : ReviewTag) (st : RRecord × Heap) : RRecord × Heap :=
  match r.tripNode with
  | some n =>
    let s := wsCollapse (String.intercalate " " (strippedStrings n))
    ({ st.1 with trip_type_travel_group := some s }, st.2)
  | none => st

/-- On a `None` entry of `reviews_soup`, every one of the ten guarded
blocks raises `AttributeError` at its first attribute access and appends
its failure tag, in source order. -/
def parseBlocksNone (st : RRecord × Heap) : RRecord × Heap :=
  handle_review_exception (handle_review_exception (handle_review_exception
    (handle_review_exception (handle_review_exception (handle_review_exception
    (handle_review_exception (handle_review_exception (handle_review_exception
    (handle_review_exception st "text") "rating") "other_ratings") "relative_date")
    "user_name") "user_data") "review_id") "likes") "response") "trip_type_travel_group"

/-- The ten guarded extractor blocks of `_parse_review` on a `Tag`, in
source order. -/
def parseBlocksTag (r : ReviewTag) (st : RRecord × Heap) : RRecord × Heap :=
  blockTrip r (blockResponse r (blockLikes r (blockReviewId r (blockUserData r
    (blockUserName r (blockRelativeDate r (blockOtherRatings r (blockRating r
    (blockText r st)))))))))

/-- Embedding of `GoogleMapsAPIScraper._parse_review`.  The record starts
as `review_default_result.copy()` — a shallow copy, so `errorsRef` still
points at the module-level list.  The ten guarded blocks run in source
order and `retrieval_date` is stamped last. -/
def parse_review (now : String) (review : ReviewSoup) (h : Heap) : RRecord × Heap :=
  match review with
  | .noneNode =>
    let st := parseBlocksNone (review_default_result, h)
    ({ st.1 with retrieval_date := some now }, st.2)
  | .tag r =>
    let st := parseBlocksTag r (review_default_result, h)
    ({ st.1 with retrieval_date := some now }, st.2)

/-- Does the rating block raise (fewer than two pattern matches, or a
missing node/attribute)? -/
def ratingRaises (r : ReviewTag) : Bool :=
  match r.ratingLabel with
  | some (some lbl) =>
    match findDecimals (commaToPeriod lbl).data with
    | _ :: _ :: _ => false
    | _ => true
  | _ => true

/-- Does the review-id block raise? -/
def reviewIdRaises (r : ReviewTag) : Bool :=
  match r.reviewIdHref with
  | some (some href) => (findPostId href.data).isNone
  | _ => true

/-- Does the likes block raise? -/
def likesRaises (r : ReviewTag) : Bool :=
  match r.likesText with
  | none => false
  | some t => (pyInt t).isNone

/-- Number of extractor blocks of `_parse_review` that raise (and hence
append a failure description) on this review entry. -/
def raisedCount : ReviewSoup → Nat
  | .noneNode => 10
  | .tag r =>
    (if ratingRaises r then 1 else 0) +
    (if r.relativeDateText.isNone then 1 else 0) +
    (if r.userNameText.isNone then 1 else 0) +
    (if reviewIdRaises r then 1 else 0) +
    (if likesRaises r then 1 else 0)

/-! ### `scrape_reviews` (lines 324-391): pagination, retry, emission -/

/-- One page of `_get_api_response` output: the review entries, the
`data-google-review-count` value and the `data-next-page-token` value. -/
structure FetchPage where
  reviews : List ReviewSoup
  count : Int
  nextToken : String

/-- A fetch environment: given the page index, the attempt index within
that page and the token sent, either a page (success) or `none` (any
exception out of `_get_api_response`, caught by the retry loop). -/
def FetchEnv := Nat → Nat → String → Option FetchPage

/-- The `while n > 0` retry loop (lines 348-362): up to `n` attempts, the
first success wins; the attempt counter `a` numbers the tries. -/
def tryAttempts (fetch : FetchEnv) (i : Nat) (tok : String) : Nat → Nat → Option FetchPage
  | 0, _ => none
  | n + 1, a =>
    match fetch i a tok with
    | some p => some p
    | none => tryAttempts fetch i tok n (a + 1)

/-- The local variables of `scrape_reviews` that live across page
iterations.  `soup` and `count` are `Option` because Python leaves them
undefined until the first successful fetch assigns them — and stale
afterwards when a later fetch fails.  `entered` counts loop iterations
begun (one non-retry fetch round per iteration). -/
structure LoopState where
  soup : Option (List ReviewSoup)
  count : Option Int
  token : String
  rows : List RRecord
  heap : Heap
  entered : Nat

/-- Result of a `scrape_reviews` call: the rows handed to the writer (in
order), the final heap, how many page iterations were begun, whether an
exception escaped the function (`raised`), and whether the loop ended
through the explicit `break` (`broke`). -/
structure Outcome where
  rows : List RRecord
  heap : Heap
  entered : Nat
  raised : Bool
  broke : Bool

/-- The emission loop (lines 365-375): parse each entry of
`reviews_soup`, stamp `result["token"] = token`, write the row and
append it to `results`. -/
def emitReviews (now tok : String) : List ReviewSoup → List RRecord → Heap → List RRecord × Heap
  | [], rows, h => (rows, h)
  | r :: rs, rows, h =>
    let pr := parse_review now r h
    emitReviews now tok rs (rows ++ [{ pr.1 with token := tok }]) pr.2

/-- One iteration of the `for i in range(n_requests)` loop body: the
retry round (on success `reviews_soup`, `review_count`, `token` are
rebound, on exhaustion they keep their previous, possibly undefined,
values); the guarded emission loop (a `NameError` from an undefined
`reviews_soup` is caught by its `try`/`except`); then the unguarded
termination check, which raises `NameError` out of the function when
`review_count` was never assigned (`.error` with `raised`), `break`s
when `review_count < 10 or token == ""` (`.error` with `broke`), and
otherwise hands the updated variables to the next iteration (`.ok`). -/
def pageIter (fetch : FetchEnv) (nRetries : Nat) (now : String) (i : Nat)
    (s : LoopState) : Except Outcome LoopState :=
  let ent := s.entered + 1
  let fres := tryAttempts fetch i s.token nRetries 0
  let soup1 := match fres with | some p => some p.reviews | none => s.soup
  let count1 := match fres with | some p => some p.count | none => s.count
  let token1 := match fres with | some p => p.nextToken | none => s.token
  let emitted := match soup1 with
    | some rs => emitReviews now token1 rs s.rows s.heap
    | none => (s.rows, s.heap)
  match count1 with
  | none => .error ⟨emitted.1, emitted.2, ent, true, false⟩
  | some c =>
    if c < 10 ∨ token1 = "" then .error ⟨emitted.1, emitted.2, ent, false, true⟩
    else .ok ⟨soup1, some c, token1, emitted.1, emitted.2, ent⟩

/-- The `for i in range(n_requests)` loop: run `pageIter` per planned
page until it stops the loop (normally or by raising) or the range is
exhausted. -/
def runPages (fetch : FetchEnv) (nRetries : Nat) (now : String) :
    Nat → Nat → LoopState → Outcome
  | 0, _, s => ⟨s.rows, s.heap, s.entered, false, false⟩
  | m + 1, i, s =>
    match pageIter fetch nRetries now i s with
    | .error o => o
    | .ok s' => runPages fetch nRetries now m (i + 1) s'

/-- Embedding of `GoogleMapsAPIScraper.scrape_reviews` from the feature
id onward (URL parsing precedes the loop and is out of scope of the
claims).  `n_requests = math.ceil(n_reviews / 10)`; when it is zero the
loop body never runs and the final log line reads the undefined loop
variable `i`, raising `NameError`. -/
def scrape_reviews (fetch : FetchEnv) (nRetries : Nat) (now : String)
    (nReviews : Nat) (token0 : String) : Outcome :=
  let nRequests := (nReviews + 9) / 10
  let out := runPages fetch nRetries now nRequests 0 ⟨none, none, token0, [], initHeap, 0⟩
  if nRequests = 0 then { out with raised := true } else out

/-! ### Invariants and statement vocabulary -/

/-- Length of the record's own `errors` list in the heap. -/
def errLen (st : RRecord × Heap) : Nat :=
  (derefErrors st.2 st.1.errorsRef).length

/-- The record's `errors` reference is the module-level cell 0 and that
cell exists in the heap. -/
def StOk (st : RRecord × Heap) : Prop :=
  st.1.errorsRef = 0 ∧ st.2 ≠ []

/-- Every extractable field of the record still holds its default
sentinel (the bookkeeping fields `token`, `retrieval_date` and
`errorsRef` are not extractor outputs). -/
def nonTimestampDefaults (rec : RRecord) : Prop :=
  rec.text = none ∧ rec.rating = none ∧ rec.rating_max = none ∧
  rec.other_ratings = none ∧ rec.relative_date = none ∧ rec.user_name = none ∧
  rec.user_url = none ∧ rec.user_is_local_guide = false ∧
  rec.user_reviews = none ∧ rec.user_photos = none ∧ rec.review_id = none ∧
  rec.likes = none ∧ rec.response_text = none ∧
  rec.response_relative_date = none ∧ rec.trip_type_travel_group = none

/-- The emitted record was produced from a review entry of a successful
fetch response and is stamped with that same response's next-page
continuation token. -/
def rowFromFetch (fetch : FetchEnv) (now : String) (rec : RRecord) : Prop :=
  ∃ i k tok p r h, fetch i k tok = some p ∧ r ∈ p.reviews ∧
    rec = { (parse_review now r h).1 with token := p.nextToken }

/-- Loop invariant for `runPages`: the live `reviews_soup` and `token`
variables came from one and the same successful fetch response (or
`reviews_soup` is still unset), and every row emitted so far satisfies
`rowFromFetch`. -/
def stateOk (fetch : FetchEnv) (now : String) (s : LoopState) : Prop :=
  (s.soup = none ∨ ∃ i k tok p, fetch i k tok = some p ∧
    s.soup = some p.reviews ∧ s.token = p.nextToken) ∧
  ∀ q ∈ s.rows, rowFromFetch fetch now q

/-! ### Concrete fixtures used by counterexamples and witnesses -/

/-- A review tag on which no extractor block raises: the rating label has
two decimal matches, the date and user name are present, the permalink
has a `postId` parameter followed by `&`, and the likes node is absent
(skipped by the truthiness guard). -/
def cleanTagC2 : ReviewSoup := .tag
  { ratingLabel := some (some "4,0 5,0")
    relativeDateText := some "d"
    userNameText := some "u"
    reviewIdHref := some (some "postId=r&")
    likesText := none }

/-- Fetch environment for C2: page 0 succeeds with one review, ten
remaining reviews and a non-empty token; every attempt on any later page
fails. -/
def fetchC2 : FetchEnv := fun i _ _ =>
  if i = 0 then some ⟨[cleanTagC2], 10, "t1"⟩ else none

/-- Fetch environment on which every attempt of every page fails. -/
def fetchFailC2 : FetchEnv := fun _ _ _ => none

/-- Fetch environment for C3: page 0 succeeds (sent the initial token
`""`) and returns next-page token `"t1"` with one unparseable review
entry. -/
def fetchC3 : FetchEnv := fun i _ _ =>
  if i = 0 then some ⟨[ReviewSoup.noneNode], 10, "t1"⟩ else none

/-- The single row `scrape_reviews fetchC3 3 "now" 10 ""` emits. -/
def rowC3 : RRecord :=
  { (parse_review "now" ReviewSoup.noneNode initHeap).1 with token := "t1" }

/-- Fetch environment for C4's witness: always succeeds with ten
remaining reviews and a non-empty token. -/
def fetchC4 : FetchEnv := fun _ _ _ => some ⟨[], 10, "t"⟩

/-- Initial loop state for C4's witness. -/
def stateC4 : LoopState := ⟨none, none, "", [], initHeap, 0⟩

/-- Fetch environment on which every attempt fails (C5 counterexample). -/
def fetchFailC5 : FetchEnv := fun _ _ _ => none

/-- Fetch environment that always succeeds with an empty page, ten
remaining reviews and a non-empty token (C5 witness). -/
def fetchOkC5 : FetchEnv := fun _ _ _ => some ⟨[], 10, "t"⟩

/-- A text block whose single direct string contains an internal run of
two spaces (C7 counterexample). -/
def nodeC7 : BNode := .elem "div" false [.text "a  b"]

/-- The review tag of the spec's end-to-end rating scenario: the Spanish
accessibility label, everything else extractable (C8). -/
def tagC8 : ReviewSoup := .tag
  { ratingLabel := some (some "4,0 de un máximo de 5 estrellas")
    relativeDateText := some "d"
    userNameText := some "u"
    reviewIdHref := some (some "postId=r&")
    likesText := none }

/-- A review tag on which no extractor block raises (C10). -/
def cleanTagC10 : ReviewSoup := .tag
  { ratingLabel := some (some "4,0 5,0")
    relativeDateText := some "d"
    userNameText := some "u"
    reviewIdHref := some (some "postId=r&")
    likesText := none }

/-! ## Supporting lemmas -/

theorem findSub_le_length (s pat : List Char) :
    ∀ j, findSub s pat = some j → j ≤ s.length := by
  induction s with
  | nil =>
    intro j h
    unfold findSub at h
    by_cases hp : pat = ([] : List Char)
    · simp [hp] at h
      omega
    · simp [hp] at h
  | cons c tl ih =>
    intro j h
    unfold findSub at h
    by_cases hp : pat.isPrefixOf (c :: tl)
    · simp [hp] at h
      omega
    · simp [hp, Option.map_eq_some'] at h
      obtain ⟨j', hj', rfl⟩ := h
      have := ih j' hj'
      simp
      omega

theorem mem_of_getLast? {α : Type} (l : List α) (a : α) :
    l.getLast? = some a → a ∈ l := by
  induction l with
  | nil => intro h; simp [List.getLast?] at h
  | cons x xs ih =>
    intro h
    cases xs with
    | nil =>
      simp [List.getLast?] at h
      simp [h]
    | cons y ys =>
      rw [List.getLast?_cons_cons] at h
      exact List.mem_cons_of_mem x (ih h)

theorem mem_occStarts_bound (s pat : List Char) (i : Nat) :
    i ∈ occStarts s pat → i + pat.length ≤ s.length := by
  intro h
  unfold occStarts at h
  have := List.of_mem_filter h
  simp at this
  exact this.2

theorem lastEndOf_le (s pat : List Char) (k : Nat) :
    lastEndOf s pat = some k → k ≤ s.length := by
  intro h
  unfold lastEndOf at h
  cases hg : (occStarts s pat).getLast? with
  | none => rw [hg] at h; simp at h
  | some i =>
    rw [hg] at h
    simp at h
    have hm := mem_occStarts_bound s pat i (mem_of_getLast? _ _ hg)
    omega

theorem pySlice_coe (s : List Char) (j k : Nat) (hj : j ≤ s.length) (hk : k ≤ s.length) :
    pySlice s (j : Int) k = (s.drop j).take (k - j) := by
  unfold pySlice
  have h1 : ¬((j : Int) < 0) := by omega
  simp only [h1, if_false, Int.toNat_natCast]
  rw [Nat.min_eq_left hj, Nat.min_eq_left hk]

/-! ## Claim C6: `_cut_response` trimming and failure behavior -/

/-- C6 (amended): for every decoded body, when the body contains an
occurrence of `"<div "` (an opening div with attributes) and at least one
`"</div>"`, `_cut_response` returns the substring from the first
`"<div "` to the end of the last `"</div>"` wrapped in the minimal
`<html><body>...</body></html>` shell; when the body contains no
`"</div>"` at all the call raises (an error the caller's retry loop
catches).  When a `"</div>"` exists but `"<div "` does not, the function
does NOT fail — `str.find` returns `-1`, which Python slicing interprets
as the last character, producing a malformed fragment
(see the counterexample). -/
theorem c6_cut_response_amended (text : String) :
    (lastEndOf text.data "</div>".data = none → cut_response text = .error ()) ∧
    (∀ j k, findSub text.data "<div ".data = some j →
      lastEndOf text.data "</div>".data = some k →
      cut_response text = .ok ("<html><body>" ++ trimmedSpan text j k ++ "</body></html>")) := by
  constructor
  · intro h
    unfold cut_response
    rw [h]
  · intro j k hj hk
    have hfind : pyFind text.data "<div ".data = (j : Int) := by
      unfold pyFind
      rw [hj]
    unfold cut_response
    rw [hk, hfind]
    show Except.ok ("<html><body>" ++ (⟨pySlice text.data ((j : Nat) : Int) k⟩ : String) ++ "</body></html>") = _
    rw [pySlice_coe text.data j k (findSub_le_length _ _ j hj) (lastEndOf_le _ _ k hk)]
    rfl

/-- C6 witness: the amended theorem applied to a concrete body. -/
theorem c6_cut_response_amended_witness :
    cut_response "abc<div x>hi</div>zz" =
      .ok ("<html><body>" ++ trimmedSpan "abc<div x>hi</div>zz" 3 18 ++ "</body></html>") :=
  (c6_cut_response_amended "abc<div x>hi</div>zz").2 3 18 (by decide) (by decide)

/-- C6 counterexample: a body with a `"</div>"` but no `"<div "` at all.
The claim says the fetch must fail; instead `_cut_response` succeeds and
returns the malformed fragment `<html><body>></body></html>` built from
the `-1` find result. -/
theorem c6_cut_response_counterexample :
    cut_response "</div>" = .ok "<html><body>></body></html>" ∧
    cut_response "</div>" ≠ .error () := by
  refine ⟨rfl, ?_⟩
  intro h
  rw [show cut_response "</div>" = .ok "<html><body>></body></html>" from rfl] at h
  exact Except.noConfusion h

/-! ## Claim C7: `_parse_review_text` -/

theorem reviewTextLoop_eq_takeWhile (pairs : List (BNode × String)) :
    reviewTextLoop pairs =
      concatStrings ((pairs.takeWhile (fun p => !(isClassedTag p.1))).map
        (fun p => p.2 ++ " ")) := by
  induction pairs with
  | nil => rfl
  | cons pr rest ih =>
    obtain ⟨e, s⟩ := pr
    by_cases h : isClassedTag e
    · simp [reviewTextLoop, h, List.takeWhile_cons, concatStrings]
    · simp only [reviewTextLoop, h, if_false, List.takeWhile_cons, Bool.not_eq_true',
        Bool.not_true, ih]
      simp [h, concatStrings]

/-- C7 (amended): `_parse_review_text` returns the concatenation of the
node's stripped strings paired positionally with its direct children
(`zip(contents, stripped_strings)`), truncated at the first child element
carrying a class attribute, each string followed by a space, with every
single whitespace character replaced by one space (runs are NOT
collapsed), quotes removed, and the result stripped.  Because the pairing
is positional over all stripped strings of the subtree, the collected
strings are not in general the node's direct text fragments. -/
theorem c7_parse_review_text_amended (tb : BNode) :
    parse_review_text tb = reviewTextAmendedSpec tb := by
  unfold parse_review_text reviewTextAmendedSpec
  rw [reviewTextLoop_eq_takeWhile]

/-- C7 counterexample: a node whose single direct text fragment contains
a run of two spaces.  The claim (whitespace runs collapsed to a single
space) demands `"a b"`; the code returns `"a  b"` because
`re.sub("\s", " ", ...)` substitutes characters, not runs. -/
theorem c7_parse_review_text_counterexample :
    parse_review_text nodeC7 = "a  b" ∧ reviewTextClaimed nodeC7 = "a b" ∧
    parse_review_text nodeC7 ≠ reviewTextClaimed nodeC7 := by
  refine ⟨rfl, rfl, ?_⟩
  decide

/-! ## Claim C8: the Spanish rating label scenario -/

/-- C8 counterexample: on the review node with rating label
`"4,0 de un máximo de 5 estrellas"` the extractor does NOT yield
`rating_max = 5.0` — the pattern `[0-9]+[.][0-9]*` requires a decimal
point, `"5"` never matches, and `rating[1]` raises `IndexError`. -/
theorem c8_rating_scenario_counterexample :
    (parse_review "now" tagC8 initHeap).1.rating_max = none ∧
    (parse_review "now" tagC8 initHeap).1.rating_max ≠ some 5 := by
  constructor
  · decide
  · decide

theorem floatOfMatch_four : floatOfMatch "4.0".data = 4 := by
  show ((4 : Nat) : Rat) + ((0 : Nat) : Rat) / (10 : Rat) ^ 1 = 4
  norm_num

theorem floatOfMatch_four_and_half : floatOfMatch "4.5".data = (9 : Rat) / 2 := by
  show ((4 : Nat) : Rat) + ((5 : Nat) : Rat) / (10 : Rat) ^ 1 = (9 : Rat) / 2
  norm_num

/-- C8 (amended): on the label `"4,0 de un máximo de 5 estrellas"` the
extractor yields `rating = 4.0`, leaves `rating_max` at its default, and
records the rating-block failure in the (shared) `errors` list. -/
theorem c8_rating_scenario_amended :
    (parse_review "now" tagC8 initHeap).1.rating = some 4 ∧
    (parse_review "now" tagC8 initHeap).1.rating_max = none ∧
    derefErrors (parse_review "now" tagC8 initHeap).2 0 = ["rating"] := by
  refine ⟨?_, by decide, by decide⟩
  show some (floatOfMatch "4.0".data) = some (4 : Rat)
  rw [floatOfMatch_four]

/-! ## Claim C9: comma/period decimal normalization -/

theorem commaToPeriodC_idem (c : Char) :
    commaToPeriodC (commaToPeriodC c) = commaToPeriodC c := by
  unfold commaToPeriodC
  by_cases h : c = ','
  · simp [h]
  · simp [h]

theorem commaToPeriod_idem (s : String) :
    commaToPeriod (commaToPeriod s) = commaToPeriod s := by
  unfold commaToPeriod
  simp only [List.map_map]
  have h : commaToPeriodC ∘ commaToPeriodC = commaToPeriodC := funext commaToPeriodC_idem
  rw [h]

/-- C9: a rating string with comma decimal separators parses exactly as
its period-separated equivalent, both for the review-rating extractor of
`_parse_review` (which substitutes `,` with `.` before matching) and for
the `overall_rating` extractor of `_parse_place` (which calls
`float(text.replace(",", "."))`); in particular `"4,5"` and `"4.5"` both
yield `4.5`. -/
theorem c9_decimal_normalization :
    (∀ s, ratingValues s = ratingValues (commaToPeriod s)) ∧
    (∀ s, overallRatingExtract s = overallRatingExtract (commaToPeriod s)) ∧
    overallRatingExtract "4,5" = some ((9 : Rat)/2) ∧
    overallRatingExtract "4.5" = some ((9 : Rat)/2) ∧
    (ratingValues "4,5").1 = some ((9 : Rat)/2) ∧
    (ratingValues "4.5").1 = some ((9 : Rat)/2) := by
  refine ⟨?_, ?_, ?_, ?_, ?_, ?_⟩
  · intro s
    unfold ratingValues
    rw [commaToPeriod_idem]
  · intro s
    unfold overallRatingExtract
    rw [commaToPeriod_idem]
  · show some (((1 : Int) : Rat) * (((4 : Nat) : Rat) + ((5 : Nat) : Rat) / (10 : Rat) ^ 1)) =
      some ((9 : Rat)/2)
    norm_num
  · show some (((1 : Int) : Rat) * (((4 : Nat) : Rat) + ((5 : Nat) : Rat) / (10 : Rat) ^ 1)) =
      some ((9 : Rat)/2)
    norm_num
  · show some (floatOfMatch "4.5".data) = some ((9 : Rat)/2)
    rw [floatOfMatch_four_and_half]
  · show some (floatOfMatch "4.5".data) = some ((9 : Rat)/2)
    rw [floatOfMatch_four_and_half]

/-! ## Claim C2: retry-budget exhaustion (code bug) -/

/-- C2 (code bug evaluation).  First run (`fetchC2`): page 0 succeeds
with one review and a continuable state, every attempt on page 1 fails;
the claim demands page 1 be skipped with zero records, but the loop
re-iterates the stale `reviews_soup` of page 0 and emits its review a
second time — two rows total, both parsed from the same single review.
Second run (`fetchFailC2`): no fetch ever succeeds, so the termination
check reads the never-assigned `review_count` and a `NameError`
propagates out of `scrape_reviews` (`raised = true`) instead of the loop
terminating cleanly. -/
theorem c2_retry_exhaustion_bug :
    ((scrape_reviews fetchC2 1 "now" 20 "").rows.length = 2 ∧
      (scrape_reviews fetchC2 1 "now" 20 "").raised = false ∧
      (scrape_reviews fetchC2 1 "now" 20 "").entered = 2) ∧
    ((scrape_reviews fetchFailC2 1 "now" 20 "").rows.length = 0 ∧
      (scrape_reviews fetchFailC2 1 "now" 20 "").raised = true) := by
  refine ⟨⟨by decide, by decide, by decide⟩, by decide, by decide⟩

/-! ## Claim C10: the shared `errors` list (code bug) -/

/-- C10 (code bug evaluation): parse a review on which every extractor
fails, then a review on which no extractor fails.  Because
`review_default_result.copy()` is shallow, both records hold the same
`errors` list reference; the second record's `errors` therefore contains
the ten failure descriptions of the FIRST review even though none of its
own extractors failed. -/
theorem c10_shared_errors_list :
    raisedCount cleanTagC10 = 0 ∧
    (parse_review "n" cleanTagC10 (parse_review "n" ReviewSoup.noneNode initHeap).2).1.errorsRef =
      (parse_review "n" ReviewSoup.noneNode initHeap).1.errorsRef ∧
    derefErrors (parse_review "n" cleanTagC10 (parse_review "n" ReviewSoup.noneNode initHeap).2).2
      (parse_review "n" cleanTagC10 (parse_review "n" ReviewSoup.noneNode initHeap).2).1.errorsRef =
      ["text", "rating", "other_ratings", "relative_date", "user_name", "user_data",
        "review_id", "likes", "response", "trip_type_travel_group"] := by
  refine ⟨by decide, by decide, by decide⟩

/-! ## Claim C3: which token stamps a record -/

/-- C3 counterexample: a single-page run whose request was sent with the
initial continuation token `""` and whose response carries next-page
token `"t1"`.  The emitted record's `token` field is `"t1"`, the
response's next-page cursor, not the token `""` that was sent in the
request that produced the page. -/
theorem c3_token_stamp_counterexample :
    (scrape_reviews fetchC3 3 "now" 10 "").rows.map (fun q => q.token) = ["t1"] ∧
    (scrape_reviews fetchC3 3 "now" 10 "").rows.map (fun q => q.token) ≠ [""] := by
  refine ⟨by decide, by decide⟩

/-! ## Claim C5: number of page fetch rounds -/

/-- C5 counterexample: `n_reviews = 20` (so `ceil(N/10) = 2` pages are
planned), every fetch attempt fails.  No termination condition (reported
count below ten / empty token) ever fires (`broke = false`), yet only one
page iteration performs its fetch round: the run aborts with a
`NameError` at the first termination check. -/
theorem c5_page_count_counterexample :
    (scrape_reviews fetchFailC5 1 "now" 20 "").entered = 1 ∧
    (scrape_reviews fetchFailC5 1 "now" 20 "").broke = false ∧
    (scrape_reviews fetchFailC5 1 "now" 20 "").raised = true ∧
    (20 + 9) / 10 ≠ 1 := by
  refine ⟨by decide, by decide, by decide, by decide⟩

theorem pageIter_entered (fetch : FetchEnv) (nr : Nat) (now : String) (i : Nat)
    (s : LoopState) :
    (∀ o, pageIter fetch nr now i s = .error o → o.entered = s.entered + 1) ∧
    (∀ s', pageIter fetch nr now i s = .ok s' → s'.entered = s.entered + 1) := by
  simp only [pageIter]
  cases hf : tryAttempts fetch i s.token nr 0 with
  | none =>
    cases hc : s.count with
    | none =>
      refine ⟨?_, ?_⟩
      · intro o ho
        injection ho with h
        rw [← h]
      · intro s' hs
        exact Except.noConfusion hs
    | some c =>
      by_cases hcond : c < 10 ∨ s.token = ""
      · simp only [if_pos hcond]
        refine ⟨?_, ?_⟩
        · intro o ho
          injection ho with h
          rw [← h]
        · intro s' hs
          exact Except.noConfusion hs
      · simp only [if_neg hcond]
        refine ⟨?_, ?_⟩
        · intro o ho
          exact Except.noConfusion ho
        · intro s' hs
          injection hs with h
          rw [← h]
  | some p =>
    by_cases hcond : p.count < 10 ∨ p.nextToken = ""
    · simp only [if_pos hcond]
      refine ⟨?_, ?_⟩
      · intro o ho
        injection ho with h
        rw [← h]
      · intro s' hs
        exact Except.noConfusion hs
    · simp only [if_neg hcond]
      refine ⟨?_, ?_⟩
      · intro o ho
        exact Except.noConfusion ho
      · intro s' hs
        injection hs with h
        rw [← h]

theorem pageIter_flags (fetch : FetchEnv) (nr : Nat) (now : String) (i : Nat)
    (s : LoopState) :
    ∀ o, pageIter fetch nr now i s = .error o →
      (o.raised = true ∧ o.broke = false) ∨ (o.raised = false ∧ o.broke = true) := by
  simp only [pageIter]
  cases hf : tryAttempts fetch i s.token nr 0 with
  | none =>
    cases hc : s.count with
    | none =>
      intro o ho
      injection ho with h
      rw [← h]
      exact Or.inl ⟨rfl, rfl⟩
    | some c =>
      by_cases hcond : c < 10 ∨ s.token = ""
      · simp only [if_pos hcond]
        intro o ho
        injection ho with h
        rw [← h]
        exact Or.inr ⟨rfl, rfl⟩
      · simp only [if_neg hcond]
        intro o ho
        exact Except.noConfusion ho
  | some p =>
    by_cases hcond : p.count < 10 ∨ p.nextToken = ""
    · simp only [if_pos hcond]
      intro o ho
      injection ho with h
      rw [← h]
      exact Or.inr ⟨rfl, rfl⟩
    · simp only [if_neg hcond]
      intro o ho
      exact Except.noConfusion ho

theorem pageIter_fetch_stop (fetch : FetchEnv) (nr : Nat) (now : String) (i : Nat)
    (s : LoopState) (p : FetchPage)
    (hf : tryAttempts fetch i s.token nr 0 = some p)
    (hcond : p.count < 10 ∨ p.nextToken = "") :
    pageIter fetch nr now i s = .error
      ⟨(emitReviews now p.nextToken p.reviews s.rows s.heap).1,
        (emitReviews now p.nextToken p.reviews s.rows s.heap).2,
        s.entered + 1, false, true⟩ := by
  simp only [pageIter, hf, if_pos hcond]

theorem pageIter_fetch_next (fetch : FetchEnv) (nr : Nat) (now : String) (i : Nat)
    (s : LoopState) (p : FetchPage)
    (hf : tryAttempts fetch i s.token nr 0 = some p)
    (hcond : ¬(p.count < 10 ∨ p.nextToken = "")) :
    pageIter fetch nr now i s = .ok
      ⟨some p.reviews, some p.count, p.nextToken,
        (emitReviews now p.nextToken p.reviews s.rows s.heap).1,
        (emitReviews now p.nextToken p.reviews s.rows s.heap).2,
        s.entered + 1⟩ := by
  simp only [pageIter, hf, if_neg hcond]

theorem runPages_succ_stop (fetch : FetchEnv) (nr : Nat) (now : String)
    (m i : Nat) (s : LoopState) (o : Outcome)
    (h : pageIter fetch nr now i s = .error o) :
    runPages fetch nr now (m + 1) i s = o := by
  simp only [runPages, h]

theorem runPages_succ_next (fetch : FetchEnv) (nr : Nat) (now : String)
    (m i : Nat) (s s' : LoopState)
    (h : pageIter fetch nr now i s = .ok s') :
    runPages fetch nr now (m + 1) i s = runPages fetch nr now m (i + 1) s' := by
  simp only [runPages, h]

theorem runPages_entered_lower (fetch : FetchEnv) (nr : Nat) (now : String) :
    ∀ (m i : Nat) (s : LoopState), s.entered ≤ (runPages fetch nr now m i s).entered := by
  intro m
  induction m with
  | zero =>
    intro i s
    exact Nat.le_refl s.entered
  | succ m ih =>
    intro i s
    cases hp : pageIter fetch nr now i s with
    | error o =>
      rw [runPages_succ_stop fetch nr now m i s o hp]
      have h := (pageIter_entered fetch nr now i s).1 o hp
      omega
    | ok s' =>
      rw [runPages_succ_next fetch nr now m i s s' hp]
      have h1 := (pageIter_entered fetch nr now i s).2 s' hp
      have h2 := ih (i + 1) s'
      omega

theorem runPages_entered_succ_lower (fetch : FetchEnv) (nr : Nat) (now : String)
    (m i : Nat) (s : LoopState) :
    s.entered + 1 ≤ (runPages fetch nr now (m + 1) i s).entered := by
  cases hp : pageIter fetch nr now i s with
  | error o =>
    rw [runPages_succ_stop fetch nr now m i s o hp]
    have h := (pageIter_entered fetch nr now i s).1 o hp
    omega
  | ok s' =>
    rw [runPages_succ_next fetch nr now m i s s' hp]
    have h1 := (pageIter_entered fetch nr now i s).2 s' hp
    have h2 := runPages_entered_lower fetch nr now m (i + 1) s'
    omega

/-! ## Claim C4: the termination condition after a successful page -/

/-- C4: at a page iteration whose fetch round succeeds with a response
reporting `count` remaining reviews and continuation token `nextToken`,
and with at least one further page planned, the loop goes on to begin
that next page (entering at least two more iterations) if and only if
NOT (`count < 10` or `nextToken = ""`) — no other condition evaluated
after a successful page ends the loop early. -/
theorem c4_termination_condition (fetch : FetchEnv) (nr : Nat) (now : String)
    (m i : Nat) (s : LoopState) (p : FetchPage)
    (hf : tryAttempts fetch i s.token nr 0 = some p) :
    ((runPages fetch nr now (m + 2) i s).entered ≥ s.entered + 2 ↔
      ¬(p.count < 10 ∨ p.nextToken = "")) := by
  by_cases hcond : p.count < 10 ∨ p.nextToken = ""
  · rw [runPages_succ_stop fetch nr now (m + 1) i s _
      (pageIter_fetch_stop fetch nr now i s p hf hcond)]
    constructor
    · intro h
      exfalso
      have : s.entered + 1 ≥ s.entered + 2 := h
      omega
    · intro hcontra
      exact absurd hcond hcontra
  · rw [runPages_succ_next fetch nr now (m + 1) i s _
      (pageIter_fetch_next fetch nr now i s p hf hcond)]
    constructor
    · intro _
      exact hcond
    · intro _
      have h := runPages_entered_succ_lower fetch nr now m (i + 1)
        ⟨some p.reviews, some p.count, p.nextToken,
          (emitReviews now p.nextToken p.reviews s.rows s.heap).1,
          (emitReviews now p.nextToken p.reviews s.rows s.heap).2,
          s.entered + 1⟩
      simpa using h

/-- C4 witness: applying the theorem to an always-successful fetch with
ten remaining reviews and a non-empty token: the loop continues. -/
theorem c4_termination_condition_witness :
    (runPages fetchC4 3 "now" 2 0 stateC4).entered ≥ stateC4.entered + 2 :=
  (c4_termination_condition fetchC4 3 "now" 0 0 stateC4 ⟨[], 10, "t"⟩ rfl).mpr (by decide)

theorem runPages_clean (fetch : FetchEnv) (nr : Nat) (now : String) :
    ∀ (m i : Nat) (s : LoopState),
      (runPages fetch nr now m i s).raised = false →
      (runPages fetch nr now m i s).broke = false →
      (runPages fetch nr now m i s).entered = s.entered + m := by
  intro m
  induction m with
  | zero =>
    intro i s _ _
    simp [runPages]
  | succ m ih =>
    intro i s
    cases hp : pageIter fetch nr now i s with
    | error o =>
      rw [runPages_succ_stop fetch nr now m i s o hp]
      intro hr hb
      rcases pageIter_flags fetch nr now i s o hp with ⟨h1, _⟩ | ⟨_, h2⟩
      · rw [hr] at h1
        exact Bool.noConfusion h1
      · rw [hb] at h2
        exact Bool.noConfusion h2
    | ok s' =>
      rw [runPages_succ_next fetch nr now m i s s' hp]
      intro hr hb
      have h1 := (pageIter_entered fetch nr now i s).2 s' hp
      have h2 := ih (i + 1) s' hr hb
      omega

/-! ## Claim C5: amended page-round count -/

/-- C5 (amended): the number of page iterations that run their fetch
round equals `ceil(n_reviews / 10)` provided no exception escaped the
call (`raised = false` — which rules out both the never-successful-fetch
`NameError` crash and the empty-range final-log `NameError`) and the
explicit termination `break` never fired (`broke = false`).  When the
first page's retry budget is exhausted with no success at all, the run
instead aborts after a single page round (see the counterexample). -/
theorem c5_page_rounds_amended (fetch : FetchEnv) (nr : Nat) (now : String)
    (n : Nat) (tok : String) :
    (scrape_reviews fetch nr now n tok).raised = false →
    (scrape_reviews fetch nr now n tok).broke = false →
    (scrape_reviews fetch nr now n tok).entered = (n + 9) / 10 := by
  intro hr hb
  unfold scrape_reviews at hr hb ⊢
  by_cases h0 : (n + 9) / 10 = 0
  · simp [h0] at hr
  · simp only [h0, if_false] at hr hb ⊢
    have h := runPages_clean fetch nr now ((n + 9) / 10) 0
      ⟨none, none, tok, [], initHeap, 0⟩ hr hb
    simpa using h

/-- C5 witness: a run in which every page succeeds and never meets the
termination condition performs exactly `ceil(20/10) = 2` page rounds. -/
theorem c5_page_rounds_amended_witness :
    (scrape_reviews fetchOkC5 3 "now" 20 "").entered = (20 + 9) / 10 :=
  c5_page_rounds_amended fetchOkC5 3 "now" 20 "" (by decide) (by decide)

/-! ## Claim C1: per-field fault isolation in `_parse_review` -/

theorem derefErrors_heapAppend_zero (h : Heap) (msg : String) (hne : h ≠ []) :
    derefErrors (heapAppend h 0 msg) 0 = derefErrors h 0 ++ [msg] := by
  cases h with
  | nil => exact absurd rfl hne
  | cons a t => rfl

theorem heapAppend_ne_nil (h : Heap) (msg : String) (hne : h ≠ []) :
    heapAppend h 0 msg ≠ [] := by
  cases h with
  | nil => exact absurd rfl hne
  | cons a t => simp [heapAppend, List.set]

theorem handle_spec (st : RRecord × Heap) (name : String) (h : StOk st) :
    StOk (handle_review_exception st name) ∧
    errLen (handle_review_exception st name) = errLen st + 1 ∧
    (handle_review_exception st name).1 = st.1 := by
  obtain ⟨h0, hne⟩ := h
  refine ⟨⟨h0, ?_⟩, ?_, rfl⟩
  · show heapAppend st.2 st.1.errorsRef name ≠ []
    rw [h0]
    exact heapAppend_ne_nil st.2 name hne
  · show (derefErrors (heapAppend st.2 st.1.errorsRef name) st.1.errorsRef).length =
      (derefErrors st.2 st.1.errorsRef).length + 1
    rw [h0, derefErrors_heapAppend_zero st.2 name hne]
    simp

/-- A step of `_parse_review` that neither appends an error nor touches
the record's `errors` reference keeps `StOk` and the error count. -/
theorem pure_step_spec (f : RRecord × Heap → RRecord × Heap) (st : RRecord × Heap)
    (hf2 : (f st).2 = st.2) (hf1 : (f st).1.errorsRef = st.1.errorsRef) (h : StOk st) :
    StOk (f st) ∧ errLen (f st) = errLen st := by
  obtain ⟨h0, hne⟩ := h
  constructor
  · exact ⟨hf1.trans h0, by rw [hf2]; exact hne⟩
  · show (derefErrors (f st).2 (f st).1.errorsRef).length = _
    rw [hf2, hf1]
    rfl

theorem blockText_preserve (r : ReviewTag) (st : RRecord × Heap) :
    (blockText r st).2 = st.2 ∧ (blockText r st).1.errorsRef = st.1.errorsRef := by
  unfold blockText
  cases r.fullTextBlock with
  | some tb => exact ⟨rfl, rfl⟩
  | none =>
    cases r.expandableBlock with
    | some tb => exact ⟨rfl, rfl⟩
    | none => exact ⟨rfl, rfl⟩

theorem blockOtherRatings_preserve (r : ReviewTag) (st : RRecord × Heap) :
    (blockOtherRatings r st).2 = st.2 ∧
    (blockOtherRatings r st).1.errorsRef = st.1.errorsRef := by
  unfold blockOtherRatings
  cases r.otherRatingsNode with
  | some n => exact ⟨rfl, rfl⟩
  | none => exact ⟨rfl, rfl⟩

theorem blockUserData_preserve (r : ReviewTag) (st : RRecord × Heap) :
    (blockUserData r st).2 = st.2 ∧
    (blockUserData r st).1.errorsRef = st.1.errorsRef := by
  cases hu : r.userNode with
  | none => simp [blockUserData, hu]
  | some u =>
    cases hr : findUserReviews u.textContent with
    | nil =>
      cases hp : findUserPhotos u.textContent with
      | nil => simp [blockUserData, hu, hr, hp]
      | cons y ys => simp [blockUserData, hu, hr, hp]
    | cons x xs =>
      cases hp : findUserPhotos u.textContent with
      | nil => simp [blockUserData, hu, hr, hp]
      | cons y ys => simp [blockUserData, hu, hr, hp]

theorem blockResponse_preserve (r : ReviewTag) (st : RRecord × Heap) :
    (blockResponse r st).2 = st.2 ∧
    (blockResponse r st).1.errorsRef = st.1.errorsRef := by
  unfold blockResponse
  cases r.responseNode with
  | some n =>
    cases r.responseDateText with
    | some s => exact ⟨rfl, rfl⟩
    | none => exact ⟨rfl, rfl⟩
  | none =>
    cases r.responseDateText with
    | some s => exact ⟨rfl, rfl⟩
    | none => exact ⟨rfl, rfl⟩

theorem blockTrip_preserve (r : ReviewTag) (st : RRecord × Heap) :
    (blockTrip r st).2 = st.2 ∧ (blockTrip r st).1.errorsRef = st.1.errorsRef := by
  unfold blockTrip
  cases r.tripNode with
  | some n => exact ⟨rfl, rfl⟩
  | none => exact ⟨rfl, rfl⟩

theorem blockRating_spec (r : ReviewTag) (st : RRecord × Heap) (h : StOk st) :
    StOk (blockRating r st) ∧
    errLen (blockRating r st) = errLen st + (if ratingRaises r then 1 else 0) := by
  cases hlbl : r.ratingLabel with
  | none =>
    have hh := handle_spec st "rating" h
    constructor
    · simp only [blockRating, hlbl]
      exact hh.1
    · simp only [blockRating, ratingRaises, hlbl, if_true]
      rw [hh.2.1]
  | some lbl? =>
    cases lbl? with
    | none =>
      have hh := handle_spec st "rating" h
      constructor
      · simp only [blockRating, hlbl]
        exact hh.1
      · simp only [blockRating, ratingRaises, hlbl, if_true]
        rw [hh.2.1]
    | some lbl =>
      cases hd : findDecimals (commaToPeriod lbl).data with
      | nil =>
        have hh := handle_spec st "rating" h
        constructor
        · simp only [blockRating, hlbl, hd]
          exact hh.1
        · simp only [blockRating, ratingRaises, hlbl, hd, if_true]
          rw [hh.2.1]
      | cons a tl =>
        cases tl with
        | nil =>
          have hst : StOk (({ st.1 with rating := some (floatOfMatch a) }, st.2) : RRecord × Heap) :=
            ⟨h.1, h.2⟩
          have hh := handle_spec ({ st.1 with rating := some (floatOfMatch a) }, st.2)
            "rating" hst
          constructor
          · simp only [blockRating, hlbl, hd]
            exact hh.1
          · simp only [blockRating, ratingRaises, hlbl, hd, if_true]
            rw [hh.2.1]
            rfl
        | cons b tl2 =>
          constructor
          · simp only [blockRating, hlbl, hd]
            exact ⟨h.1, h.2⟩
          · simp only [blockRating, ratingRaises, hlbl, hd, if_false]
            rfl

theorem blockRelativeDate_spec (r : ReviewTag) (st : RRecord × Heap) (h : StOk st) :
    StOk (blockRelativeDate r st) ∧
    errLen (blockRelativeDate r st) =
      errLen st + (if r.relativeDateText.isNone then 1 else 0) := by
  cases hx : r.relativeDateText with
  | none =>
    have hh := handle_spec st "relative_date" h
    constructor
    · simp only [blockRelativeDate, hx]
      exact hh.1
    · simp only [blockRelativeDate, hx, Option.isNone_none, if_true]
      rw [hh.2.1]
  | some s =>
    constructor
    · simp only [blockRelativeDate, hx]
      exact ⟨h.1, h.2⟩
    · simp only [blockRelativeDate, hx, Option.isNone_some, if_false]
      rfl

theorem blockUserName_spec (r : ReviewTag) (st : RRecord × Heap) (h : StOk st) :
    StOk (blockUserName r st) ∧
    errLen (blockUserName r st) =
      errLen st + (if r.userNameText.isNone then 1 else 0) := by
  cases hx : r.userNameText with
  | none =>
    have hh := handle_spec st "user_name" h
    constructor
    · simp only [blockUserName, hx]
      exact hh.1
    · simp only [blockUserName, hx, Option.isNone_none, if_true]
      rw [hh.2.1]
  | some s =>
    constructor
    · simp only [blockUserName, hx]
      exact ⟨h.1, h.2⟩
    · simp only [blockUserName, hx, Option.isNone_some, if_false]
      rfl

theorem blockReviewId_spec (r : ReviewTag) (st : RRecord × Heap) (h : StOk st) :
    StOk (blockReviewId r st) ∧
    errLen (blockReviewId r st) = errLen st + (if reviewIdRaises r then 1 else 0) := by
  cases hx : r.reviewIdHref with
  | none =>
    have hh := handle_spec st "review_id" h
    constructor
    · simp only [blockReviewId, hx]
      exact hh.1
    · simp only [blockReviewId, reviewIdRaises, hx, if_true]
      rw [hh.2.1]
  | some href? =>
    cases href? with
    | none =>
      have hh := handle_spec st "review_id" h
      constructor
      · simp only [blockReviewId, hx]
        exact hh.1
      · simp only [blockReviewId, reviewIdRaises, hx, if_true]
        rw [hh.2.1]
    | some href =>
      cases hp : findPostId href.data with
      | none =>
        have hh := handle_spec st "review_id" h
        constructor
        · simp only [blockReviewId, hx, hp]
          exact hh.1
        · simp only [blockReviewId, reviewIdRaises, hx, hp, Option.isNone_none, if_true]
          rw [hh.2.1]
      | some content =>
        constructor
        · simp only [blockReviewId, hx, hp]
          exact ⟨h.1, h.2⟩
        · simp only [blockReviewId, reviewIdRaises, hx, hp, Option.isNone_some, if_false]
          rfl

theorem blockLikes_spec (r : ReviewTag) (st : RRecord × Heap) (h : StOk st) :
    StOk (blockLikes r st) ∧
    errLen (blockLikes r st) = errLen st + (if likesRaises r then 1 else 0) := by
  cases hx : r.likesText with
  | none =>
    constructor
    · simp only [blockLikes, hx]
      exact h
    · simp only [blockLikes, likesRaises, hx, if_false]
      rfl
  | some t =>
    cases hp : pyInt t with
    | none =>
      have hh := handle_spec st "likes" h
      constructor
      · simp only [blockLikes, hx, hp]
        exact hh.1
      · simp only [blockLikes, likesRaises, hx, hp, Option.isNone_none, if_true]
        rw [hh.2.1]
    | some v =>
      constructor
      · simp only [blockLikes, hx, hp]
        exact ⟨h.1, h.2⟩
      · simp only [blockLikes, likesRaises, hx, hp, Option.isNone_some, if_false]
        rfl

theorem parseBlocksNone_spec (st : RRecord × Heap) (h : StOk st) :
    StOk (parseBlocksNone st) ∧ errLen (parseBlocksNone st) = errLen st + 10 := by
  have s1 := handle_spec st "text" h
  have s2 := handle_spec _ "rating" s1.1
  have s3 := handle_spec _ "other_ratings" s2.1
  have s4 := handle_spec _ "relative_date" s3.1
  have s5 := handle_spec _ "user_name" s4.1
  have s6 := handle_spec _ "user_data" s5.1
  have s7 := handle_spec _ "review_id" s6.1
  have s8 := handle_spec _ "likes" s7.1
  have s9 := handle_spec _ "response" s8.1
  have s10 := handle_spec _ "trip_type_travel_group" s9.1
  constructor
  · exact s10.1
  · show errLen (handle_review_exception _ "trip_type_travel_group") = _
    rw [s10.2.1, s9.2.1, s8.2.1, s7.2.1, s6.2.1, s5.2.1, s4.2.1, s3.2.1, s2.2.1, s1.2.1]

theorem parseBlocksTag_spec (r : ReviewTag) (st : RRecord × Heap) (h : StOk st) :
    StOk (parseBlocksTag r st) ∧
    errLen (parseBlocksTag r st) = errLen st + raisedCount (ReviewSoup.tag r) := by
  have s1 := pure_step_spec (blockText r) st (blockText_preserve r st).1
    (blockText_preserve r st).2 h
  have s2 := blockRating_spec r _ s1.1
  have s3 := pure_step_spec (blockOtherRatings r) _ (blockOtherRatings_preserve r _).1
    (blockOtherRatings_preserve r _).2 s2.1
  have s4 := blockRelativeDate_spec r _ s3.1
  have s5 := blockUserName_spec r _ s4.1
  have s6 := pure_step_spec (blockUserData r) _ (blockUserData_preserve r _).1
    (blockUserData_preserve r _).2 s5.1
  have s7 := blockReviewId_spec r _ s6.1
  have s8 := blockLikes_spec r _ s7.1
  have s9 := pure_step_spec (blockResponse r) _ (blockResponse_preserve r _).1
    (blockResponse_preserve r _).2 s8.1
  have s10 := pure_step_spec (blockTrip r) _ (blockTrip_preserve r _).1
    (blockTrip_preserve r _).2 s9.1
  constructor
  · exact s10.1
  · show errLen (blockTrip r _) = _
    rw [s10.2, s9.2, s8.2, s7.2, s6.2, s5.2, s4.2, s3.2, s2.2, s1.2]
    simp only [raisedCount]
    omega

theorem parse_review_errors (now : String) (review : ReviewSoup) (h : Heap)
    (hne : h ≠ []) :
    (parse_review now review h).1.errorsRef = 0 ∧
    (derefErrors (parse_review now review h).2 0).length =
      (derefErrors h 0).length + raisedCount review := by
  have h0 : StOk ((review_default_result, h) : RRecord × Heap) := ⟨rfl, hne⟩
  cases review with
  | noneNode =>
    have hs := parseBlocksNone_spec (review_default_result, h) h0
    constructor
    · exact hs.1.1
    · have e1 : (derefErrors (parseBlocksNone (review_default_result, h)).2 0).length
          = errLen (parseBlocksNone (review_default_result, h)) := by
        unfold errLen
        rw [hs.1.1]
      show (derefErrors (parseBlocksNone (review_default_result, h)).2 0).length = _
      rw [e1, hs.2]
      rfl
  | tag r =>
    have hs := parseBlocksTag_spec r (review_default_result, h) h0
    constructor
    · exact hs.1.1
    · have e1 : (derefErrors (parseBlocksTag r (review_default_result, h)).2 0).length
          = errLen (parseBlocksTag r (review_default_result, h)) := by
        unfold errLen
        rw [hs.1.1]
      show (derefErrors (parseBlocksTag r (review_default_result, h)).2 0).length = _
      rw [e1, hs.2]
      rfl

theorem emitReviews_length (now tok : String) :
    ∀ (rs : List ReviewSoup) (rows : List RRecord) (h : Heap),
      (emitReviews now tok rs rows h).1.length = rows.length + rs.length := by
  intro rs
  induction rs with
  | nil =>
    intro rows h
    simp [emitReviews]
  | cons r rs ih =>
    intro rows h
    simp only [emitReviews]
    rw [ih]
    simp [List.length_append]
    omega

theorem parse_review_noneNode_defaults (now : String) (h : Heap) :
    nonTimestampDefaults (parse_review now ReviewSoup.noneNode h).1 := by
  exact ⟨rfl, rfl, rfl, rfl, rfl, rfl, rfl, rfl, rfl, rfl, rfl, rfl, rfl, rfl, rfl⟩

theorem pageIter_success_no_raise (fetch : FetchEnv) (nr : Nat) (now : String) (i : Nat)
    (s : LoopState) (p : FetchPage) (hf : tryAttempts fetch i s.token nr 0 = some p) :
    ∀ o, pageIter fetch nr now i s = .error o → o.raised = false := by
  intro o ho
  by_cases hcond : p.count < 10 ∨ p.nextToken = ""
  · rw [pageIter_fetch_stop fetch nr now i s p hf hcond] at ho
    injection ho with h'
    rw [← h']
  · rw [pageIter_fetch_next fetch nr now i s p hf hcond] at ho
    exact Except.noConfusion ho

/-- C1: fault isolation of the extractor blocks.  (1) the emission loop
hands the writer exactly one record per entry of a page's review list;
(2) `_parse_review` always returns a record whose `errors` reference is
the module cell, with exactly one failure description appended per
raised extractor block — so `errors` grows and is non-empty whenever any
extractor failed; (3) on a review entry on which every extractor raises
(a `None` soup entry) the returned record carries only default/missing
values in every extractable field, all ten blocks having appended their
failure tags; (4) a page iteration whose fetch round succeeded never
raises out of the loop — extractor failures are all absorbed inside
`_parse_review`, and the only fault that escapes `scrape_reviews` is the
unrelated never-fetched `NameError` of the termination check. -/
theorem c1_fault_isolation :
    (∀ (now tok : String) (rs : List ReviewSoup) (rows : List RRecord) (h : Heap),
      (emitReviews now tok rs rows h).1.length = rows.length + rs.length) ∧
    (∀ (now : String) (review : ReviewSoup) (h : Heap), h ≠ [] →
      (parse_review now review h).1.errorsRef = 0 ∧
      (derefErrors (parse_review now review h).2 0).length =
        (derefErrors h 0).length + raisedCount review) ∧
    (∀ (now : String) (h : Heap),
      nonTimestampDefaults (parse_review now ReviewSoup.noneNode h).1 ∧
      raisedCount ReviewSoup.noneNode = 10) ∧
    (∀ (fetch : FetchEnv) (nr : Nat) (now : String) (i : Nat) (s : LoopState) (p : FetchPage),
      tryAttempts fetch i s.token nr 0 = some p →
      ∀ o, pageIter fetch nr now i s = .error o → o.raised = false) := by
  refine ⟨emitReviews_length, parse_review_errors, ?_, pageIter_success_no_raise⟩
  intro now h
  exact ⟨parse_review_noneNode_defaults now h, rfl⟩

/-- C1 witness: on the all-extractors-fail review entry (a `None` soup
entry) over the module-import heap, the record's `errors` reference is
cell 0 and exactly `raisedCount = 10` failure descriptions were
appended. -/
theorem c1_fault_isolation_witness :
    (parse_review "n" ReviewSoup.noneNode initHeap).1.errorsRef = 0 ∧
    (derefErrors (parse_review "n" ReviewSoup.noneNode initHeap).2 0).length =
      (derefErrors initHeap 0).length + raisedCount ReviewSoup.noneNode :=
  c1_fault_isolation.2.1 "n" ReviewSoup.noneNode initHeap (by decide)

/-! ## Claim C3 (amended): records are stamped with their page's
response token -/

theorem tryAttempts_success (fetch : FetchEnv) (i : Nat) (tok : String) :
    ∀ (n a : Nat) (p : FetchPage), tryAttempts fetch i tok n a = some p →
      ∃ k, fetch i k tok = some p := by
  intro n
  induction n with
  | zero =>
    intro a p hp
    exact Option.noConfusion hp
  | succ n ih =>
    intro a p hp
    simp only [tryAttempts] at hp
    cases hfa : fetch i a tok with
    | some q =>
      rw [hfa] at hp
      injection hp with h'
      exact ⟨a, by rw [hfa, h']⟩
    | none =>
      rw [hfa] at hp
      exact ih (a + 1) p hp

theorem emitReviews_from (fetch : FetchEnv) (now tok : String) (p : FetchPage)
    (i0 k0 : Nat) (tok0 : String) (hp : fetch i0 k0 tok0 = some p)
    (htok : tok = p.nextToken) :
    ∀ (rs : List ReviewSoup) (rows : List RRecord) (h : Heap),
      (∀ r ∈ rs, r ∈ p.reviews) →
      (∀ q ∈ rows, rowFromFetch fetch now q) →
      ∀ q ∈ (emitReviews now tok rs rows h).1, rowFromFetch fetch now q := by
  intro rs
  induction rs with
  | nil =>
    intro rows h _ hrows q hq
    exact hrows q hq
  | cons r rs ih =>
    intro rows h hmem hrows q hq
    simp only [emitReviews] at hq
    refine ih _ _ (fun r' hr' => hmem r' (List.mem_cons_of_mem r hr')) ?_ q hq
    intro q' hq'
    rcases List.mem_append.mp hq' with hq1 | hq2
    · exact hrows q' hq1
    · have hq3 : q' = { (parse_review now r h).1 with token := tok } := by
        simpa using hq2
      rw [hq3, htok]
      exact ⟨i0, k0, tok0, p, r, h, hp, hmem r (List.mem_cons_self r rs), rfl⟩

theorem pageIter_state_ok (fetch : FetchEnv) (nr : Nat) (now : String) (i : Nat)
    (s : LoopState) (hs : stateOk fetch now s) :
    (∀ o, pageIter fetch nr now i s = .error o → ∀ q ∈ o.rows, rowFromFetch fetch now q) ∧
    (∀ s', pageIter fetch nr now i s = .ok s' → stateOk fetch now s') := by
  obtain ⟨hsoup, hrows⟩ := hs
  simp only [pageIter]
  cases hf : tryAttempts fetch i s.token nr 0 with
  | some p =>
    obtain ⟨k, hk⟩ := tryAttempts_success fetch i s.token nr 0 p hf
    have hemit : ∀ q ∈ (emitReviews now p.nextToken p.reviews s.rows s.heap).1,
        rowFromFetch fetch now q :=
      emitReviews_from fetch now p.nextToken p i k s.token hk rfl p.reviews s.rows s.heap
        (fun r hr => hr) hrows
    by_cases hcond : p.count < 10 ∨ p.nextToken = ""
    · simp only [if_pos hcond]
      refine ⟨?_, ?_⟩
      · intro o ho
        injection ho with h'
        rw [← h']
        exact hemit
      · intro s' hs'
        exact Except.noConfusion hs'
    · simp only [if_neg hcond]
      refine ⟨?_, ?_⟩
      · intro o ho
        exact Except.noConfusion ho
      · intro s' hs'
        injection hs' with h'
        rw [← h']
        exact ⟨Or.inr ⟨i, k, s.token, p, hk, rfl, rfl⟩, hemit⟩
  | none =>
    have hemit : ∀ q ∈ (match s.soup with
        | some rs => emitReviews now s.token rs s.rows s.heap
        | none => (s.rows, s.heap)).1, rowFromFetch fetch now q := by
      rcases hsoup with hnone | ⟨i0, k0, tok0, p0, hp0, hsoup0, htok0⟩
      · rw [hnone]
        exact hrows
      · rw [hsoup0]
        exact emitReviews_from fetch now s.token p0 i0 k0 tok0 hp0 htok0 p0.reviews
          s.rows s.heap (fun r hr => hr) hrows
    cases hc : s.count with
    | none =>
      refine ⟨?_, ?_⟩
      · intro o ho
        injection ho with h'
        rw [← h']
        exact hemit
      · intro s' hs'
        exact Except.noConfusion hs'
    | some c =>
      by_cases hcond : c < 10 ∨ s.token = ""
      · simp only [if_pos hcond]
        refine ⟨?_, ?_⟩
        · intro o ho
          injection ho with h'
          rw [← h']
          exact hemit
        · intro s' hs'
          exact Except.noConfusion hs'
      · simp only [if_neg hcond]
        refine ⟨?_, ?_⟩
        · intro o ho
          exact Except.noConfusion ho
        · intro s' hs'
          injection hs' with h'
          rw [← h']
          exact ⟨hsoup, hemit⟩

theorem runPages_rows_ok (fetch : FetchEnv) (nr : Nat) (now : String) :
    ∀ (m i : Nat) (s : LoopState), stateOk fetch now s →
      ∀ q ∈ (runPages fetch nr now m i s).rows, rowFromFetch fetch now q := by
  intro m
  induction m with
  | zero =>
    intro i s hs q hq
    exact hs.2 q hq
  | succ m ih =>
    intro i s hs
    cases hp : pageIter fetch nr now i s with
    | error o =>
      rw [runPages_succ_stop fetch nr now m i s o hp]
      exact (pageIter_state_ok fetch nr now i s hs).1 o hp
    | ok s' =>
      rw [runPages_succ_next fetch nr now m i s s' hp]
      exact ih (i + 1) s' ((pageIter_state_ok fetch nr now i s hs).2 s' hp)

/-- C3 (amended): every record `scrape_reviews` emits was parsed from a
review entry of some successful fetch response and is stamped with THAT
response's next-page continuation token (the cursor for resuming after
the page it came from) — not with the token that was sent in the request
that produced the page: `_get_api_response` rebinds `token` to the
response's `data-next-page-token` before `result["token"] = token` runs
(see the counterexample). -/
theorem c3_token_stamp_amended (fetch : FetchEnv) (nr : Nat) (now : String)
    (n : Nat) (tok0 : String) :
    ∀ q ∈ (scrape_reviews fetch nr now n tok0).rows, rowFromFetch fetch now q := by
  intro q hq
  have hinit : stateOk fetch now ⟨none, none, tok0, [], initHeap, 0⟩ :=
    ⟨Or.inl rfl, fun q' hq' => absurd hq' (List.not_mem_nil q')⟩
  have hrun := runPages_rows_ok fetch nr now ((n + 9) / 10) 0 _ hinit
  apply hrun
  unfold scrape_reviews at hq
  by_cases h0 : (n + 9) / 10 = 0
  · simpa [h0] using hq
  · simpa [h0] using hq

/-- C3 witness: the amended theorem applied to the single row of the
concrete one-page run. -/
theorem c3_token_stamp_amended_witness : rowFromFetch fetchC3 "now" rowC3 :=
  c3_token_stamp_amended fetchC3 3 "now" 10 "" rowC3 (by decide)

end Scraper
